import Mathlib

/-!
Verification of the ODR-DabMod DPD computation engine control plane
(`src/python/dpdce.py`): the worker thread's calibration state machine, the
lock-guarded shared `settings`/`results` records, the RPC dispatch table,
the single-slot command queue, and the measure/model/adapt/report
adaptation cycle.

The Python code is embedded shallowly: each lock-protected write to the
shared state becomes an event, a run of the worker produces the ordered
list of events it performs, and the shared state at any observation point
is the fold of the event prefix over the initial state.  Floating-point
gains and medians are abstracted to integers: every claim about them is a
pure equality between values read from the environment and values stored,
so the carrier type is irrelevant.
-/

namespace Dpdce

/-- The `settings` dict (dpdce.py lines 131-136).  `dpddata` is opaque to
the claims and omitted. -/
structure Settings where
  rx_gain : Int
  tx_gain : Int
  digital_gain : Int
  deriving Repr, DecidableEq

/-- The `results` dict (dpdce.py lines 137-143). -/
structure Results where
  tx_median : Int
  rx_median : Int
  state : String
  stateprogress : Int
  summary : List String
  deriving Repr, DecidableEq

/-- Initial `results` value (dpdce.py lines 137-143). -/
def initialResults : Results :=
  { tx_median := 0
    rx_median := 0
    state := "Idle"
    stateprogress := 0
    summary := ["DPD has not been calibrated yet"] }

/-- The shared state guarded by `lock`: both dicts together. -/
structure EngineState where
  settings : Settings
  results : Results
  deriving Repr, DecidableEq

/-- A concrete initial engine state (bootstrap reads arbitrary hardware
truth; the claims never depend on these three numbers). -/
def initEngine : EngineState :=
  { settings := { rx_gain := 10, tx_gain := 11, digital_gain := 12 }
    results := initialResults }

/-- One lock-protected field write performed by the worker. -/
inductive Ev where
  | setState (s : String)
  | setProgress (p : Int)
  | setSummary (l : List String)
  | setTxMedian (x : Int)
  | setRxMedian (x : Int)
  | setRxGain (x : Int)
  | setDigitalGain (x : Int)
  deriving Repr, DecidableEq

/-- Apply one write to the shared state. -/
def applyEv (st : EngineState) : Ev → EngineState
  | .setState s => { st with results := { st.results with state := s } }
  | .setProgress p => { st with results := { st.results with stateprogress := p } }
  | .setSummary l => { st with results := { st.results with summary := l } }
  | .setTxMedian x => { st with results := { st.results with tx_median := x } }
  | .setRxMedian x => { st with results := { st.results with rx_median := x } }
  | .setRxGain x => { st with settings := { st.settings with rx_gain := x } }
  | .setDigitalGain x => { st with settings := { st.settings with digital_gain := x } }

/-- Apply a sequence of writes in order. -/
def applyEvs (st : EngineState) (evs : List Ev) : EngineState :=
  evs.foldl applyEv st

/-- The values written to `results.stateprogress` along a trace. -/
def progressWrites (evs : List Ev) : List Int :=
  evs.filterMap fun e =>
    match e with
    | .setProgress p => some p
    | _ => none

/-- The values written to `results.summary` along a trace. -/
def summaryWrites (evs : List Ev) : List (List String) :=
  evs.filterMap fun e =>
    match e with
    | .setSummary l => some l
    | _ => none

/-- External environment of one `calibrate` command: the AGC collaborator's
`run()` result per round (`Except.error` models a raised exception), the
final `meas.get_samples()` call returning `(rx_median, tx_median)`
(`Except.error` models a raised exception), and the hardware adapter's
current `get_rxgain()` / `get_digital_gain()` reads. -/
structure CalibEnv where
  agc : Nat → Except Unit (Bool × String)
  sample : Except Unit (Int × Int)
  get_rxgain : Int
  get_digital_gain : Int

/-- Number of AGC rounds: `N_ITER = 5` (dpdce.py line 163). -/
def N_ITER : Nat := 5

/-- Progress after round `i`: `int((i + 1) * 100/N_ITER)` (dpdce.py line 169).  The Python float
arithmetic is exact here (100/5 = 20.0) and `int` truncates toward zero on
a nonnegative value, which coincides with natural division. -/
def progressOf (i : Nat) : Int :=
  (((i + 1) * 100) / N_ITER : Nat)

/-- Round marker string: `"calibration run {}:".format(i)` (dpdce.py line 166). -/
def calibRunStr (i : Nat) : String :=
  "calibration run " ++ toString i ++ ":"

/-- Split a character list at every occurrence of `sep`, keeping empty
segments, with `[[]]` for the empty list. -/
def splitCharList (sep : Char) : List Char → List (List Char)
  | [] => [[]]
  | c :: cs =>
    match splitCharList sep cs with
    | [] => [[]]
    | h :: t => if c = sep then [] :: h :: t else (c :: h) :: t

/-- Python `text.split("\n")` (dpdce.py line 166): split at every newline,
keeping empty segments, and `[""]` on the empty string. -/
def splitNewline (text : String) : List String :=
  (splitCharList '\n' text.data).map fun l => String.mk l

/-- Result of the `for i in range(N_ITER)` AGC loop (dpdce.py lines
164-172): the writes performed, the value of the local variable `summary`
at loop exit, the number of completed `agc.run()` calls, and whether an
exception escaped. -/
structure LoopRes where
  events : List Ev
  summary : List String
  rounds : Nat
  crashed : Bool
  deriving Repr

/-- The AGC loop body (dpdce.py lines 164-172), recursing on remaining
rounds: call `agc.run()`; rebind the local `summary` to
`["calibration run i:"] ++ agc_summary.split("\n")`; write
`stateprogress`; break on failure. -/
def agcLoop (env : CalibEnv) : Nat → Nat → List String → LoopRes
  | 0, _, summary => ⟨[], summary, 0, false⟩
  | fuel + 1, i, summary =>
    match env.agc i with
    | .error _ => ⟨[], summary, 0, true⟩
    | .ok (agc_success, agc_summary) =>
      let summary := calibRunStr i :: splitNewline agc_summary
      if agc_success then
        let r := agcLoop env fuel (i + 1) summary
        ⟨.setProgress (progressOf i) :: r.events, r.summary, r.rounds + 1, r.crashed⟩
      else
        ⟨[.setProgress (progressOf i)], summary, 1, false⟩

/-- Result of handling one `calibrate` command. -/
structure CalibRes where
  events : List Ev
  rounds : Nat
  summary : List String
  crashed : Bool
  deriving Repr

/-- Handler of the `calibrate` command (dpdce.py lines 157-183): set state
and progress, run the AGC loop, then (when no exception escaped) take one
measurement sample and publish settings and results under the lock in
source order (lines 176-183). -/
def calibrateRun (env : CalibEnv) : CalibRes :=
  let pre : List Ev := [.setState "RX Gain Calibration", .setProgress 0]
  let r := agcLoop env N_ITER 0 []
  if r.crashed then
    ⟨pre ++ r.events, r.rounds, r.summary, true⟩
  else
    match env.sample with
    | .error _ => ⟨pre ++ r.events, r.rounds, r.summary, true⟩
    | .ok (rx_median, tx_median) =>
      let post : List Ev :=
        [.setRxGain env.get_rxgain, .setDigitalGain env.get_digital_gain,
         .setTxMedian tx_median, .setRxMedian rx_median,
         .setState "Idle", .setProgress 0,
         .setSummary ("Calibration was done:" :: r.summary)]
      ⟨pre ++ r.events ++ post, r.rounds, r.summary, false⟩

/-- A command dequeued by the worker.  `calibrate` carries the external
environment its handler will interact with. -/
inductive Cmd where
  | quit
  | trigger_run
  | reset
  | calibrate (env : CalibEnv)

/-- How the worker's receive loop ended: dequeued `"quit"`, killed by an
unhandled exception, or still blocked waiting for further commands. -/
inductive Outcome where
  | terminated_quit
  | terminated_crash
  | waiting
  deriving Repr, DecidableEq

/-- The `finally` block of `engine_worker` (dpdce.py lines 185-188). -/
def finalizerEvs : List Ev :=
  [.setState "Terminated", .setProgress 0]

/-- The worker's receive loop (dpdce.py lines 150-188) over a sequence of
dequeued commands: `"quit"` breaks out (the finalizer then runs),
`"calibrate"` runs its handler (an escaping exception reaches the
finalizer and kills the thread), and any other command matches no branch
and is ignored. -/
def workerEvents : List Cmd → List Ev × Outcome
  | [] => ([], .waiting)
  | .quit :: _ => (finalizerEvs, .terminated_quit)
  | .trigger_run :: rest => workerEvents rest
  | .reset :: rest => workerEvents rest
  | .calibrate env :: rest =>
    if (calibrateRun env).crashed then
      ((calibrateRun env).events ++ finalizerEvs, .terminated_crash)
    else
      ((calibrateRun env).events ++ (workerEvents rest).1, (workerEvents rest).2)

/-- Final shared state and outcome after the worker processes `cmds`. -/
def workerRun (init : EngineState) (cmds : List Cmd) : EngineState × Outcome :=
  (applyEvs init (workerEvents cmds).1, (workerEvents cmds).2)

/-- A response sent back on the control channel: only its kind and, for
errors, the diagnostic text matter to the claims (the success payload is a
locked copy of `settings` or `results`). -/
inductive Resp where
  | success
  | error (msg : String)
  deriving Repr, DecidableEq

/-- The request dispatch chain (dpdce.py lines 210-230): for each method
name, the response sent to the requester (`none` means no response at all)
and the command enqueued on `command_queue` (`none` means nothing
enqueued). -/
def dispatch (method : String) : Option Resp × Option String :=
  if method = "trigger_run" then (none, some "trigger_run")
  else if method = "reset" then (none, some "reset")
  else if method = "set_setting" then (none, none)
  else if method = "get_settings" then (some .success, none)
  else if method = "get_results" then (some .success, none)
  else if method = "calibrate" then (none, some "calibrate")
  else (some (.error "request not understood"), none)

/-- The six method names the dispatch chain recognises. -/
def knownMethods : List String :=
  ["trigger_run", "reset", "set_setting", "get_settings", "get_results", "calibrate"]

/-! ### Single-slot command queue

Modelled from the spec: `command_queue = Queue(maxsize=1)` (dpdce.py line
145) instantiates Python's standard-library `queue.Queue`, whose code is
not part of this repository; §2/§5 of the spec describe it as a
single-slot, blocking, backpressuring channel.  A queue state is its list
of pending commands; `put` on a full queue returns `none` (the submitter
blocks), and `get` removes the oldest pending command — the slot frees at
dequeue, with no notion of the command's later execution. -/

/-- Blocking `put` of `Queue(maxsize=1)`: succeeds only while fewer than
one command is pending; otherwise the submitter blocks (`none`). -/
def qPut (q : List String) (c : String) : Option (List String) :=
  if q.length < 1 then some (q ++ [c]) else none

/-- Blocking `get`: removes and returns the oldest pending command, or
blocks (`none`) when the queue is empty. -/
def qGet (q : List String) : Option (String × List String) :=
  match q with
  | [] => none
  | c :: rest => some (c, rest)

/-- A queue operation attempted by some thread. -/
inductive QOp where
  | put (c : String)
  | get

/-- Run a sequence of queue operations; a blocked operation leaves the
queue unchanged (the thread merely waits). -/
def qRunOps : List QOp → List String → List String
  | [], q => q
  | .put c :: ops, q => qRunOps ops ((qPut q c).getD q)
  | .get :: ops, q =>
    qRunOps ops (match qGet q with
      | none => q
      | some (_, rest) => rest)

/-! ### Adaptation cycle (dpdce.py lines 263-354)

The `while i < num_iter` loop is a four-state machine over the mutable
locals `state`, `i`, `extStat.n_meas`, the measurement triple
`tx / rx / phase_diff`, plus the collaborators.  One pass of the loop body
becomes one application of `cycleStep`.  The environment of one pass says
whether the external calls raise: `measOutcome = none` models an exception
in `get_samples`/`extract` (caught by the outer handler, lines 350-354),
otherwise it carries whether the extracted triple is all non-`None` and
the accumulator's new `n_meas` count. -/

/-- The four values of the `state` variable. -/
inductive CState where
  | measure
  | model
  | adapt
  | report
  deriving Repr, DecidableEq

/-- The mutable locals of the cycle that the claims observe.  `trains`
counts `model.train` invocations and `logs` records the error messages
logged, both history variables. -/
structure CycleSt where
  state : CState
  i : Nat
  accCount : Nat
  haveData : Bool
  trains : Nat
  logs : List String
  deriving Repr, DecidableEq

/-- External nondeterminism of one pass of the loop body. -/
structure StepEnv where
  measOutcome : Option (Bool × Nat)
  trainThrows : Bool
  adaptThrows : Bool
  reportThrows : Bool

/-- Initial cycle state (dpdce.py lines 263-264): `state = 'report'`,
`i = 0`, fresh accumulator, no extracted triple yet. -/
def initialCycleSt : CycleSt :=
  { state := .report, i := 0, accCount := 0, haveData := false, trains := 0, logs := [] }

/-- The message logged by the outer per-iteration handler (line 351). -/
def iterFailedMsg (i : Nat) : String :=
  "Iteration " ++ toString i ++ " failed."

/-- The message logged when the Report step raises (line 345). -/
def reportFailedMsg (i : Nat) : String :=
  "Iteration " ++ toString i ++ ": Report failed."

/-- One pass of the adaptation loop body (dpdce.py lines 267-354),
parameterized by `Heuristics.get_n_meas`:

* `measure`: sample and extract (an exception goes to the outer handler:
  log, `i += 1`, back to `measure`); store the triple, advance to `model`
  exactly when the accumulated count reaches `get_n_meas i`;
* `model`: with no data, log an error and return to `measure` without
  training; otherwise train (an exception again goes to the outer
  handler), reset the accumulator and advance to `adapt`;
* `adapt`: push the predistorter (exception to the outer handler), then
  `report`;
* `report`: the whole body sits in an inner `try` whose handler logs and
  swallows any exception, after which `i += 1` and `state = 'measure'`
  run unconditionally. -/
def cycleStep (get_n_meas : Nat → Nat) (env : StepEnv) (st : CycleSt) : CycleSt :=
  match st.state with
  | .measure =>
    match env.measOutcome with
    | none =>
      { st with i := st.i + 1, state := .measure, logs := st.logs ++ [iterFailedMsg st.i] }
    | some (hd, cnt) =>
      if get_n_meas st.i ≤ cnt then
        { st with haveData := hd, accCount := cnt, state := .model }
      else
        { st with haveData := hd, accCount := cnt, state := .measure }
  | .model =>
    if st.haveData then
      if env.trainThrows then
        { st with trains := st.trains + 1, i := st.i + 1, state := .measure,
                  logs := st.logs ++ [iterFailedMsg st.i] }
      else
        { st with trains := st.trains + 1, accCount := 0, state := .adapt }
    else
      { st with state := .measure, logs := st.logs ++ ["No data to calculate model"] }
  | .adapt =>
    if env.adaptThrows then
      { st with i := st.i + 1, state := .measure, logs := st.logs ++ [iterFailedMsg st.i] }
    else
      { st with state := .report }
  | .report =>
    if env.reportThrows then
      { st with i := st.i + 1, state := .measure, logs := st.logs ++ [reportFailedMsg st.i] }
    else
      { st with i := st.i + 1, state := .measure }

/-! ## Helper lemmas -/

/-- Unconditional shape of the AGC loop trace: the writes are exactly one
`stateprogress` write per completed round, in round order, and at most
`fuel` rounds complete. -/
lemma agcLoop_events_spec (env : CalibEnv) :
    ∀ (fuel i : Nat) (s₀ : List String),
      (agcLoop env fuel i s₀).events =
        (List.range' i (agcLoop env fuel i s₀).rounds).map
          (fun j => Ev.setProgress (progressOf j)) ∧
      (agcLoop env fuel i s₀).rounds ≤ fuel := by
  intro fuel
  induction fuel with
  | zero => intro i s₀; simp [agcLoop]
  | succ f ih =>
    intro i s₀
    rcases hagc : env.agc i with e | p
    · simp [agcLoop, hagc]
    · obtain ⟨ok, text⟩ := p
      rcases ok with _ | _
      · simp [agcLoop, hagc]
      · obtain ⟨he, hr⟩ := ih (i + 1) (calibRunStr i :: splitNewline text)
        simp only [agcLoop, hagc]
        simp [he, List.range'_succ]
        omega

/-- The progress formula evaluates to 20 per cent per completed round. -/
lemma progressOf_eq (j : Nat) : progressOf j = ((20 * (j + 1) : Nat) : Int) := by
  unfold progressOf N_ITER
  congr 1
  rw [show (j + 1) * 100 = (20 * (j + 1)) * 5 by ring]
  exact Nat.mul_div_cancel _ (by norm_num)

/-- Every progress value written during the first five rounds is in
`[0, 100]`. -/
lemma progressOf_bounded (j : Nat) (hj : j < 5) : 0 ≤ progressOf j ∧ progressOf j ≤ 100 := by
  rw [progressOf_eq]
  constructor
  · exact Int.natCast_nonneg _
  · have : 20 * (j + 1) ≤ 100 := by omega
    exact_mod_cast this

/-- The progress formula is monotone in the round index. -/
lemma progressOf_mono {j k : Nat} (h : j ≤ k) : progressOf j ≤ progressOf k := by
  rw [progressOf_eq, progressOf_eq]
  have : 20 * (j + 1) ≤ 20 * (k + 1) := by omega
  exact_mod_cast this

lemma progressWrites_append (a b : List Ev) :
    progressWrites (a ++ b) = progressWrites a ++ progressWrites b := by
  simp [progressWrites]

lemma summaryWrites_append (a b : List Ev) :
    summaryWrites (a ++ b) = summaryWrites a ++ summaryWrites b := by
  simp [summaryWrites]

lemma progressWrites_map_setProgress (f : Nat → Int) (l : List Nat) :
    progressWrites (l.map fun j => Ev.setProgress (f j)) = l.map f := by
  induction l with
  | nil => simp [progressWrites]
  | cons x xs ih => simp [progressWrites]; simpa [progressWrites] using ih

lemma summaryWrites_map_setProgress (f : Nat → Int) (l : List Nat) :
    summaryWrites (l.map fun j => Ev.setProgress (f j)) = [] := by
  induction l with
  | nil => simp [summaryWrites]
  | cons x xs ih => rw [← ih]; simp [summaryWrites]

lemma applyEvs_append (st : EngineState) (a b : List Ev) :
    applyEvs st (a ++ b) = applyEvs (applyEvs st a) b := by
  simp [applyEvs]

/-- When the AGC succeeds on every round before `m` and fails on round `m`,
the loop completes exactly `m + 1` rounds, leaves the local `summary` at
round `m`'s text, and raises nothing. -/
lemma agcLoop_fail (env : CalibEnv) :
    ∀ (m fuel i : Nat) (s₀ : List String) (sk : String),
      m < fuel →
      (∀ j, j < m → ∃ s, env.agc (i + j) = Except.ok (true, s)) →
      env.agc (i + m) = Except.ok (false, sk) →
      (agcLoop env fuel i s₀).rounds = m + 1 ∧
      (agcLoop env fuel i s₀).summary = calibRunStr (i + m) :: splitNewline sk ∧
      (agcLoop env fuel i s₀).crashed = false := by
  intro m
  induction m with
  | zero =>
    intro fuel i s₀ sk hm hprev hfail
    obtain ⟨f, rfl⟩ : ∃ f, fuel = f + 1 := ⟨fuel - 1, by omega⟩
    rw [Nat.add_zero] at hfail
    simp [agcLoop, hfail]
  | succ m ih =>
    intro fuel i s₀ sk hm hprev hfail
    obtain ⟨f, rfl⟩ : ∃ f, fuel = f + 1 := ⟨fuel - 1, by omega⟩
    obtain ⟨s0, h0⟩ := hprev 0 (Nat.succ_pos m)
    rw [Nat.add_zero] at h0
    have hfail' : env.agc ((i + 1) + m) = Except.ok (false, sk) := by
      rw [show (i + 1) + m = i + (m + 1) by omega]; exact hfail
    have hprev' : ∀ j, j < m → ∃ s, env.agc ((i + 1) + j) = Except.ok (true, s) := by
      intro j hj
      obtain ⟨s, hsx⟩ := hprev (j + 1) (by omega)
      exact ⟨s, by rw [show (i + 1) + j = i + (j + 1) by omega]; exact hsx⟩
    obtain ⟨hr, hs2, hc⟩ :=
      ih f (i + 1) (calibRunStr i :: splitNewline s0) sk (by omega) hprev' hfail'
    rw [show i + (m + 1) = (i + 1) + m by omega]
    simp [agcLoop, h0, hr, hs2, hc]

/-- When the AGC succeeds on every round, the loop runs `fuel` rounds and
raises nothing. -/
lemma agcLoop_allok (env : CalibEnv)
    (hall : ∀ j, ∃ s, env.agc j = Except.ok (true, s)) :
    ∀ (fuel i : Nat) (s₀ : List String),
      (agcLoop env fuel i s₀).rounds = fuel ∧ (agcLoop env fuel i s₀).crashed = false := by
  intro fuel
  induction fuel with
  | zero => intro i s₀; simp [agcLoop]
  | succ f ih =>
    intro i s₀
    obtain ⟨s, hs⟩ := hall i
    obtain ⟨hr, hc⟩ := ih (i + 1) (calibRunStr i :: splitNewline s)
    simp [agcLoop, hs, hr, hc]

/-- Full shape of a `calibrate` run that completes without an exception. -/
lemma calibrateRun_ok (env : CalibEnv) (rxm txm : Int)
    (hs : env.sample = Except.ok (rxm, txm))
    (hc : (agcLoop env N_ITER 0 []).crashed = false) :
    calibrateRun env =
      { events := [Ev.setState "RX Gain Calibration", Ev.setProgress 0]
          ++ (agcLoop env N_ITER 0 []).events
          ++ [Ev.setRxGain env.get_rxgain, Ev.setDigitalGain env.get_digital_gain,
              Ev.setTxMedian txm, Ev.setRxMedian rxm,
              Ev.setState "Idle", Ev.setProgress 0,
              Ev.setSummary ("Calibration was done:" :: (agcLoop env N_ITER 0 []).summary)]
        rounds := (agcLoop env N_ITER 0 []).rounds
        summary := (agcLoop env N_ITER 0 []).summary
        crashed := false } := by
  simp [calibrateRun, hs, hc]

/-- A `calibrate` run's progress writes are bounded by `[0, 100]` on every
path, exception or not. -/
lemma calibrateRun_progress_bounded (env : CalibEnv) (p : Int)
    (hp : p ∈ progressWrites (calibrateRun env).events) : 0 ≤ p ∧ p ≤ 100 := by
  obtain ⟨hev, hle⟩ := agcLoop_events_spec env N_ITER 0 []
  have hloop : ∀ q : Int, q ∈ progressWrites (agcLoop env N_ITER 0 []).events →
      0 ≤ q ∧ q ≤ 100 := by
    intro q hq
    rw [hev, progressWrites_map_setProgress] at hq
    obtain ⟨j, hj, rfl⟩ := List.mem_map.mp hq
    have : j < 5 := by
      have h1 := List.mem_range'_1.mp hj
      have h2 : (agcLoop env N_ITER 0 []).rounds ≤ 5 := hle
      omega
    exact progressOf_bounded j this
  unfold calibrateRun at hp
  rcases hcr : (agcLoop env N_ITER 0 []).crashed with _ | _
  · rcases hsm : env.sample with e | pr
    · simp only [hcr, hsm] at hp
      simp [progressWrites_append, progressWrites] at hp
      rcases hp with hp | hp
      · subst hp; norm_num
      · exact hloop p (by simpa [progressWrites] using hp)
    · obtain ⟨rxm, txm⟩ := pr
      simp only [hcr, hsm] at hp
      simp [progressWrites_append, progressWrites] at hp
      rcases hp with hp | hp | hp
      · subst hp; norm_num
      · exact hloop p (by simpa [progressWrites] using hp)
      · subst hp; norm_num
  · simp only [hcr] at hp
    simp [progressWrites_append, progressWrites] at hp
    rcases hp with hp | hp
    · subst hp; norm_num
    · exact hloop p (by simpa [progressWrites] using hp)

/-- Every progress value on any full worker trace is bounded by
`[0, 100]`, across all commands, crashes and the finalizer. -/
lemma workerEvents_progress_bounded :
    ∀ (cmds : List Cmd) (p : Int),
      p ∈ progressWrites (workerEvents cmds).1 → 0 ≤ p ∧ p ≤ 100 := by
  intro cmds
  induction cmds with
  | nil => intro p hp; simp [workerEvents, progressWrites] at hp
  | cons c rest ih =>
    cases c with
    | quit =>
      intro p hp
      simp [workerEvents, finalizerEvs, progressWrites] at hp
      subst hp; norm_num
    | trigger_run => exact ih
    | reset => exact ih
    | calibrate env =>
      intro p hp
      by_cases hcr : (calibrateRun env).crashed = true
      · simp only [workerEvents, hcr, if_true] at hp
        rw [progressWrites_append] at hp
        rcases List.mem_append.mp hp with hp | hp
        · exact calibrateRun_progress_bounded env p hp
        · simp [finalizerEvs, progressWrites] at hp
          subst hp; norm_num
      · simp only [workerEvents, hcr, if_false, Bool.false_eq_true] at hp
        rw [progressWrites_append] at hp
        rcases List.mem_append.mp hp with hp | hp
        · exact calibrateRun_progress_bounded env p hp
        · exact ih p hp

/-- Whenever the worker loop ends — `quit` or crash — its trace ends with
the finalizer writes. -/
lemma workerEvents_terminated :
    ∀ cmds : List Cmd, (workerEvents cmds).2 ≠ Outcome.waiting →
      ∃ pre, (workerEvents cmds).1 = pre ++ finalizerEvs := by
  intro cmds
  induction cmds with
  | nil => intro h; simp [workerEvents] at h
  | cons c rest ih =>
    cases c with
    | quit => intro _; exact ⟨[], by simp [workerEvents]⟩
    | trigger_run => exact ih
    | reset => exact ih
    | calibrate env =>
      intro h
      by_cases hcr : (calibrateRun env).crashed = true
      · exact ⟨(calibrateRun env).events, by simp [workerEvents, hcr]⟩
      · obtain ⟨pre, hpre⟩ := ih (by simpa [workerEvents, hcr] using h)
        exact ⟨(calibrateRun env).events ++ pre,
          by simp [workerEvents, hcr, hpre]⟩

/-- The finalizer writes force the terminated fields. -/
lemma applyEvs_finalizer (st : EngineState) :
    (applyEvs st finalizerEvs).results.state = "Terminated" ∧
    (applyEvs st finalizerEvs).results.stateprogress = 0 := by
  simp [applyEvs, finalizerEvs, applyEv]

/-- The queue invariant: starting at most one pending command, any
sequence of puts and gets keeps at most one pending command. -/
lemma qRunOps_length :
    ∀ (ops : List QOp) (q : List String), q.length ≤ 1 → (qRunOps ops q).length ≤ 1 := by
  intro ops
  induction ops with
  | nil => intro q h; simpa [qRunOps] using h
  | cons op rest ih =>
    intro q h
    cases op with
    | put c =>
      by_cases hq : q.length < 1
      · have hq0 : q = [] := List.length_eq_zero.mp (by omega)
        subst hq0
        have hput : qPut [] c = some [c] := by simp [qPut]
        simp only [qRunOps, hput, Option.getD_some]
        exact ih _ (by simp)
      · have hput : qPut q c = none := by simp [qPut, hq]
        simp only [qRunOps, hput, Option.getD_none]
        exact ih _ h
    | get =>
      cases q with
      | nil => simp only [qRunOps, qGet]; exact ih _ (by simp)
      | cons c cs =>
        simp only [qRunOps, qGet]
        have hcs : cs.length ≤ 1 := by
          rw [List.length_cons] at h
          omega
        exact ih _ hcs

/-! ## Claims -/

/-- C5: whenever the worker's receive loop terminates — whether by
dequeuing a `quit` command or by an unhandled exception escaping command
dispatch — the finalizer runs and leaves `results.state = "Terminated"`
and `results.stateprogress = 0` before the worker thread ends, on every
exit path of the loop. -/
theorem worker_exit_runs_finalizer (init : EngineState) (cmds : List Cmd)
    (h : (workerRun init cmds).2 ≠ Outcome.waiting) :
    (workerRun init cmds).1.results.state = "Terminated" ∧
    (workerRun init cmds).1.results.stateprogress = 0 := by
  obtain ⟨pre, hpre⟩ := workerEvents_terminated cmds (by simpa [workerRun] using h)
  simp only [workerRun]
  rw [hpre, applyEvs_append]
  exact applyEvs_finalizer _

/-- Witness for C5: a lone `quit` command terminates the loop and the
final state shows `Terminated` with progress `0`. -/
theorem worker_exit_runs_finalizer_witness :
    (workerRun initEngine [Cmd.quit]).1.results.state = "Terminated" ∧
    (workerRun initEngine [Cmd.quit]).1.results.stateprogress = 0 :=
  worker_exit_runs_finalizer initEngine [Cmd.quit] (by decide)

/-- C6: the dispatcher sends an error response exactly on the method
names outside the six known ones, and every error response carries
non-empty diagnostic text; known methods never elicit an error. -/
theorem unknown_method_error_iff :
    ∀ method : String,
      ((∃ msg, (dispatch method).1 = some (Resp.error msg)) ↔ method ∉ knownMethods) ∧
      ∀ msg, (dispatch method).1 = some (Resp.error msg) → msg ≠ "" := by
  intro method
  constructor
  · unfold dispatch knownMethods
    split_ifs with h1 h2 h3 h4 h5 h6 <;> simp [*]
  · intro msg hmsg
    unfold dispatch at hmsg
    split_ifs at hmsg <;> simp at hmsg
    subst hmsg
    decide

/-- Witness for C6: the unknown method name `"bogus"` elicits the
non-empty diagnostic `"request not understood"`. -/
theorem unknown_method_error_iff_witness : "request not understood" ≠ "" :=
  (unknown_method_error_iff "bogus").2 "request not understood" (by decide)

/-- C7: an exception raised anywhere inside the Report step is caught and
logged, the iteration counter advances by exactly one and the next state
entered is Measure — a Report failure does not halt the cycle. -/
theorem report_exception_advances_iteration (get_n_meas : Nat → Nat) (env : StepEnv)
    (st : CycleSt) (hst : st.state = CState.report) (hthrow : env.reportThrows = true) :
    (cycleStep get_n_meas env st).i = st.i + 1 ∧
    (cycleStep get_n_meas env st).state = CState.measure ∧
    (cycleStep get_n_meas env st).logs = st.logs ++ [reportFailedMsg st.i] := by
  simp [cycleStep, hst, hthrow]

/-- Witness for C7: a throwing Report on the cycle's initial state. -/
theorem report_exception_advances_iteration_witness :
    (cycleStep (fun _ => 1) ⟨none, false, false, true⟩ initialCycleSt).i =
      initialCycleSt.i + 1 ∧
    (cycleStep (fun _ => 1) ⟨none, false, false, true⟩ initialCycleSt).state =
      CState.measure ∧
    (cycleStep (fun _ => 1) ⟨none, false, false, true⟩ initialCycleSt).logs =
      initialCycleSt.logs ++ [reportFailedMsg initialCycleSt.i] :=
  report_exception_advances_iteration (fun _ => 1) ⟨none, false, false, true⟩
    initialCycleSt (by decide) rfl

/-- C8: from Measure the cycle advances to Model — and hence may reach
the fitter — only once the accumulated count is at least
`Heuristics.get_n_meas i`; below that it stays in Measure without
training, and Model with no accumulated data logs an error and returns
to Measure without invoking the fitter. -/
theorem model_gated_by_required_measurements (get_n_meas : Nat → Nat)
    (env : StepEnv) (st : CycleSt) :
    (st.state = CState.measure → ∀ hd cnt, env.measOutcome = some (hd, cnt) →
      cnt < get_n_meas st.i →
      (cycleStep get_n_meas env st).state = CState.measure ∧
      (cycleStep get_n_meas env st).trains = st.trains) ∧
    (st.state = CState.measure → (cycleStep get_n_meas env st).state = CState.model →
      ∃ hd cnt, env.measOutcome = some (hd, cnt) ∧ get_n_meas st.i ≤ cnt) ∧
    (st.state = CState.model → st.haveData = false →
      (cycleStep get_n_meas env st).state = CState.measure ∧
      (cycleStep get_n_meas env st).trains = st.trains ∧
      (cycleStep get_n_meas env st).logs =
        st.logs ++ ["No data to calculate model"]) := by
  refine ⟨?_, ?_, ?_⟩
  · intro hst hd cnt hmo hlt
    have : ¬ get_n_meas st.i ≤ cnt := by omega
    simp [cycleStep, hst, hmo, this]
  · intro hst hmodel
    rcases hmo : env.measOutcome with _ | ⟨hd, cnt⟩
    · simp [cycleStep, hst, hmo] at hmodel
    · by_cases hle : get_n_meas st.i ≤ cnt
      · exact ⟨hd, cnt, rfl, hle⟩
      · simp [cycleStep, hst, hmo, hle] at hmodel
  · intro hst hdata
    simp [cycleStep, hst, hdata]

/-- Witness for C8: in Measure with 0 accumulated and 1 required, the
cycle stays in Measure and the fitter is untouched. -/
theorem model_gated_by_required_measurements_witness :
    (cycleStep (fun _ => 1) ⟨some (false, 0), false, false, false⟩
        { initialCycleSt with state := CState.measure }).state = CState.measure ∧
    (cycleStep (fun _ => 1) ⟨some (false, 0), false, false, false⟩
        { initialCycleSt with state := CState.measure }).trains =
      { initialCycleSt with state := CState.measure }.trains :=
  (model_gated_by_required_measurements (fun _ => 1)
      ⟨some (false, 0), false, false, false⟩
      { initialCycleSt with state := CState.measure }).1
    (by decide) false 0 rfl (by decide)

/-- C9: the command queue holds at most one pending command at any time;
a second submission while one is queued blocks the submitter until the
worker dequeues the prior command, and the slot frees on dequeue — a
`get` alone re-enables `put`, with no notion of the command's execution
finishing. -/
theorem command_queue_single_slot :
    (∀ ops : List QOp, (qRunOps ops []).length ≤ 1) ∧
    (∀ c c' : String, qPut [c] c' = none) ∧
    (∀ c : String, qGet [c] = some (c, [])) ∧
    (∀ c : String, qPut [] c = some [c]) := by
  refine ⟨fun ops => qRunOps_length ops [] (by simp), ?_, ?_, ?_⟩
  · intro c c'; simp [qPut]
  · intro c; simp [qGet]
  · intro c; simp [qPut]

/-- C10: `trigger_run`, `reset`, `set_setting` and `calibrate` requests
get no response at all — only `get_settings`, `get_results` and unknown
methods elicit one — and a dequeued `trigger_run` or `reset` command is
a no-op for the worker: no action, no change to `settings` or
`results`. -/
theorem fire_and_forget_commands :
    (∀ method : String,
      (dispatch method).1 = none ↔
        (method = "trigger_run" ∨ method = "reset" ∨ method = "set_setting" ∨
          method = "calibrate")) ∧
    (∀ (init : EngineState) (rest : List Cmd),
      workerRun init (Cmd.trigger_run :: rest) = workerRun init rest) ∧
    (∀ (init : EngineState) (rest : List Cmd),
      workerRun init (Cmd.reset :: rest) = workerRun init rest) := by
  refine ⟨?_, fun init rest => rfl, fun init rest => rfl⟩
  intro method
  unfold dispatch
  split_ifs with h1 h2 h3 h4 h5 h6 <;> simp [*]

/-- AGC stub failing on the very first round; final sample
`(rx_median, tx_median) = (1, 2)`, adapter reads `3` and `4`. -/
def failFirstEnv : CalibEnv :=
  { agc := fun _ => Except.ok (false, "agc report")
    sample := Except.ok (1, 2)
    get_rxgain := 3
    get_digital_gain := 4 }

/-- C1 counterexample: with the AGC failing on round `k = 0` (and
vacuously succeeding on all earlier rounds), the run executes exactly
`k + 1 = 1` round, but the first element of `results.summary` after the
run is `"Calibration was done:"`, not `"calibration run 0:"` as the
claim states. -/
theorem calibrate_summary_head_cex :
    (calibrateRun failFirstEnv).rounds = 0 + 1 ∧
    (applyEvs initEngine (calibrateRun failFirstEnv).events).results.summary.head? =
      some "Calibration was done:" ∧
    some "Calibration was done:" ≠ some (calibRunStr 0) := by
  refine ⟨rfl, rfl, by decide⟩

/-- C1 (amended): with the AGC succeeding before round `k < 5` and
failing on round `k`, exactly `k + 1` AGC rounds execute, and after the
run `results.summary` is `["Calibration was done:"]` followed by
`"calibration run k:"` and the lines of round `k`'s AGC summary — the
round marker is element 1 of `results.summary`, not element 0. -/
theorem calibrate_early_exit (env : CalibEnv) (init : EngineState) (k : Nat)
    (sk : String) (rxm txm : Int)
    (hk : k < N_ITER)
    (hprev : ∀ j, j < k → ∃ s, env.agc j = Except.ok (true, s))
    (hfail : env.agc k = Except.ok (false, sk))
    (hs : env.sample = Except.ok (rxm, txm)) :
    (calibrateRun env).rounds = k + 1 ∧
    (applyEvs init (calibrateRun env).events).results.summary =
      "Calibration was done:" :: calibRunStr k :: splitNewline sk := by
  obtain ⟨hr, hsum, hcrash⟩ :=
    agcLoop_fail env k N_ITER 0 [] sk hk
      (fun j hj => by simpa using hprev j hj)
      (by simpa using hfail)
  have hsum' : (agcLoop env N_ITER 0 []).summary = calibRunStr k :: splitNewline sk := by
    simpa using hsum
  rw [calibrateRun_ok env rxm txm hs hcrash]
  refine ⟨hr, ?_⟩
  simp [applyEvs_append, applyEvs, applyEv, hsum']

/-- Witness for C1's amended theorem, at `k = 0` with `failFirstEnv`. -/
theorem calibrate_early_exit_witness :
    (calibrateRun failFirstEnv).rounds = 0 + 1 ∧
    (applyEvs initEngine (calibrateRun failFirstEnv).events).results.summary =
      "Calibration was done:" :: calibRunStr 0 :: splitNewline "agc report" :=
  calibrate_early_exit failFirstEnv initEngine 0 "agc report" 1 2 (by decide)
    (fun j hj => absurd hj (by omega)) rfl rfl

/-- AGC stub succeeding on every round; final sample
`(rx_median, tx_median) = (5, 6)`, adapter reads `7` and `8`. -/
def allOkEnv : CalibEnv :=
  { agc := fun _ => Except.ok (true, "agc report")
    sample := Except.ok (5, 6)
    get_rxgain := 7
    get_digital_gain := 8 }

/-- C2: when every AGC round succeeds, all 5 rounds execute and at
completion `results.state = "Idle"`, `results.stateprogress = 0`,
`settings.rx_gain` and `settings.digital_gain` equal the hardware
adapter's current reads, `results.tx_median` / `rx_median` equal the
medians of the final measurement sample, and `results.summary` begins
with `"Calibration was done:"`. -/
theorem calibrate_all_success (env : CalibEnv) (init : EngineState) (rxm txm : Int)
    (hall : ∀ j, ∃ s, env.agc j = Except.ok (true, s))
    (hs : env.sample = Except.ok (rxm, txm)) :
    (calibrateRun env).rounds = N_ITER ∧
    (applyEvs init (calibrateRun env).events).results.state = "Idle" ∧
    (applyEvs init (calibrateRun env).events).results.stateprogress = 0 ∧
    (applyEvs init (calibrateRun env).events).settings.rx_gain = env.get_rxgain ∧
    (applyEvs init (calibrateRun env).events).settings.digital_gain =
      env.get_digital_gain ∧
    (applyEvs init (calibrateRun env).events).results.tx_median = txm ∧
    (applyEvs init (calibrateRun env).events).results.rx_median = rxm ∧
    (applyEvs init (calibrateRun env).events).results.summary.head? =
      some "Calibration was done:" := by
  obtain ⟨hr, hcrash⟩ := agcLoop_allok env hall N_ITER 0 []
  rw [calibrateRun_ok env rxm txm hs hcrash]
  refine ⟨hr, ?_, ?_, ?_, ?_, ?_, ?_, ?_⟩ <;>
    simp [applyEvs_append, applyEvs, applyEv]

/-- Witness for C2 with the always-succeeding stub `allOkEnv`. -/
theorem calibrate_all_success_witness :
    (calibrateRun allOkEnv).rounds = N_ITER ∧
    (applyEvs initEngine (calibrateRun allOkEnv).events).results.state = "Idle" ∧
    (applyEvs initEngine (calibrateRun allOkEnv).events).results.stateprogress = 0 ∧
    (applyEvs initEngine (calibrateRun allOkEnv).events).settings.rx_gain =
      allOkEnv.get_rxgain ∧
    (applyEvs initEngine (calibrateRun allOkEnv).events).settings.digital_gain =
      allOkEnv.get_digital_gain ∧
    (applyEvs initEngine (calibrateRun allOkEnv).events).results.tx_median = 6 ∧
    (applyEvs initEngine (calibrateRun allOkEnv).events).results.rx_median = 5 ∧
    (applyEvs initEngine (calibrateRun allOkEnv).events).results.summary.head? =
      some "Calibration was done:" :=
  calibrate_all_success allOkEnv initEngine 5 6 (fun _ => ⟨"agc report", rfl⟩) rfl

/-- C3: on any command sequence every value the worker writes to
`results.stateprogress` lies in `[0, 100]`; within one (exception-free)
calibration run the writes are `0` at run start, then one nondecreasing
progress value per round, then `0` again exactly at the return to
`Idle`. -/
theorem stateprogress_bounded_monotone :
    (∀ (cmds : List Cmd) (p : Int),
      p ∈ progressWrites (workerEvents cmds).1 → 0 ≤ p ∧ p ≤ 100) ∧
    (∀ env : CalibEnv, (calibrateRun env).crashed = false →
      progressWrites (calibrateRun env).events =
        0 :: ((List.range (calibrateRun env).rounds).map progressOf ++ [0]) ∧
      List.Chain' (fun a b => a ≤ b)
        (0 :: (List.range (calibrateRun env).rounds).map progressOf)) := by
  refine ⟨workerEvents_progress_bounded, ?_⟩
  intro env hc
  have hl' : (agcLoop env N_ITER 0 []).crashed = false := by
    by_contra hl
    rw [Bool.not_eq_false] at hl
    simp [calibrateRun, hl] at hc
  rcases hsm : env.sample with e | ⟨rxm, txm⟩
  · exfalso; simp [calibrateRun, hl', hsm] at hc
  · obtain ⟨hev, hle⟩ := agcLoop_events_spec env N_ITER 0 []
    have hev2 : (calibrateRun env).events =
        [Ev.setState "RX Gain Calibration", Ev.setProgress 0]
        ++ (agcLoop env N_ITER 0 []).events
        ++ [Ev.setRxGain env.get_rxgain, Ev.setDigitalGain env.get_digital_gain,
            Ev.setTxMedian txm, Ev.setRxMedian rxm,
            Ev.setState "Idle", Ev.setProgress 0,
            Ev.setSummary ("Calibration was done:" :: (agcLoop env N_ITER 0 []).summary)] := by
      simp [calibrateRun, hl', hsm]
    have hrounds : (calibrateRun env).rounds = (agcLoop env N_ITER 0 []).rounds := by
      simp [calibrateRun, hl', hsm]
    rw [hev2, hrounds]
    constructor
    · rw [hev, progressWrites_append, progressWrites_append,
          progressWrites_map_setProgress]
      simp [progressWrites, List.range_eq_range']
    · rw [List.chain'_cons']
      constructor
      · intro y hy
        have hy' := List.mem_of_mem_head? hy
        obtain ⟨j, hj, rfl⟩ := List.mem_map.mp hy'
        rw [progressOf_eq]
        exact Int.natCast_nonneg _
      · refine List.Pairwise.chain' ?_
        refine List.pairwise_map.mpr ?_
        exact (List.pairwise_lt_range _).imp fun h => progressOf_mono (Nat.le_of_lt h)

/-- Witness for C3: the write `0` of the bare-`quit` trace is in range. -/
theorem stateprogress_bounded_monotone_witness : 0 ≤ (0 : Int) ∧ (0 : Int) ≤ 100 :=
  stateprogress_bounded_monotone.1 [Cmd.quit] 0 (by decide)

/-- AGC stub succeeding on every round with summary text `"agc text"`. -/
def allOkTextEnv : CalibEnv :=
  { agc := fun _ => Except.ok (true, "agc text")
    sample := Except.ok (5, 6)
    get_rxgain := 7
    get_digital_gain := 8 }

/-- C4 counterexample: the worker never writes `results.summary` between
rounds.  With an always-succeeding AGC, the trace up to the end of round
0 is exactly `state`, `progress 0`, `progress 20` — no summary write —
so a reader at that point still sees the initial
`["DPD has not been calibrated yet"]`, not round 0's summary, and the
whole run performs exactly one `results.summary` write (at the end). -/
theorem summary_not_replaced_mid_run_cex :
    (calibrateRun allOkTextEnv).events.take 3 =
      [Ev.setState "RX Gain Calibration", Ev.setProgress 0, Ev.setProgress 20] ∧
    (applyEvs initEngine ((calibrateRun allOkTextEnv).events.take 3)).results.summary =
      ["DPD has not been calibrated yet"] ∧
    ["DPD has not been calibrated yet"] ≠ calibRunStr 0 :: splitNewline "agc text" ∧
    summaryWrites (calibrateRun allOkTextEnv).events =
      [["Calibration was done:", calibRunStr 4, "agc text"]] := by
  refine ⟨by decide, by decide, by decide, by decide⟩

/-- C4 (amended): after each AGC round the worker, under the lock, writes
only `results.stateprogress = int((i + 1) * 100 / N_ITER)`; the round's
summary text replaces the *local* `summary` variable, while
`results.summary` is written exactly once per exception-free run, after
the loop, as `["Calibration was done:"]` followed by the last round's
summary — so a reader between rounds observes the previous
`results.summary`, not the current round's. -/
theorem per_round_progress_single_summary_publish (env : CalibEnv)
    (rxm txm : Int) (hs : env.sample = Except.ok (rxm, txm))
    (hc : (calibrateRun env).crashed = false) :
    (calibrateRun env).events =
      [Ev.setState "RX Gain Calibration", Ev.setProgress 0]
      ++ (List.range (calibrateRun env).rounds).map
          (fun j => Ev.setProgress (progressOf j))
      ++ [Ev.setRxGain env.get_rxgain, Ev.setDigitalGain env.get_digital_gain,
          Ev.setTxMedian txm, Ev.setRxMedian rxm,
          Ev.setState "Idle", Ev.setProgress 0,
          Ev.setSummary ("Calibration was done:" :: (calibrateRun env).summary)] ∧
    summaryWrites (calibrateRun env).events =
      [("Calibration was done:" :: (calibrateRun env).summary)] := by
  have hl' : (agcLoop env N_ITER 0 []).crashed = false := by
    by_contra hl
    rw [Bool.not_eq_false] at hl
    simp [calibrateRun, hl] at hc
  obtain ⟨hev, hle⟩ := agcLoop_events_spec env N_ITER 0 []
  have hev2 : (calibrateRun env).events =
      [Ev.setState "RX Gain Calibration", Ev.setProgress 0]
      ++ (agcLoop env N_ITER 0 []).events
      ++ [Ev.setRxGain env.get_rxgain, Ev.setDigitalGain env.get_digital_gain,
          Ev.setTxMedian txm, Ev.setRxMedian rxm,
          Ev.setState "Idle", Ev.setProgress 0,
          Ev.setSummary ("Calibration was done:" :: (agcLoop env N_ITER 0 []).summary)] := by
    simp [calibrateRun, hl', hs]
  have hrounds : (calibrateRun env).rounds = (agcLoop env N_ITER 0 []).rounds := by
    simp [calibrateRun, hl', hs]
  have hsummary : (calibrateRun env).summary = (agcLoop env N_ITER 0 []).summary := by
    simp [calibrateRun, hl', hs]
  rw [hev2, hrounds, hsummary, hev]
  constructor
  · simp [List.range_eq_range']
  · simp [summaryWrites_append, summaryWrites, summaryWrites_map_setProgress]

/-- Witness for C4's amended theorem with the always-succeeding stub. -/
theorem per_round_progress_single_summary_publish_witness :
    (calibrateRun allOkTextEnv).events =
      [Ev.setState "RX Gain Calibration", Ev.setProgress 0]
      ++ (List.range (calibrateRun allOkTextEnv).rounds).map
          (fun j => Ev.setProgress (progressOf j))
      ++ [Ev.setRxGain allOkTextEnv.get_rxgain,
          Ev.setDigitalGain allOkTextEnv.get_digital_gain,
          Ev.setTxMedian 6, Ev.setRxMedian 5,
          Ev.setState "Idle", Ev.setProgress 0,
          Ev.setSummary ("Calibration was done:" :: (calibrateRun allOkTextEnv).summary)] ∧
    summaryWrites (calibrateRun allOkTextEnv).events =
      [("Calibration was done:" :: (calibrateRun allOkTextEnv).summary)] :=
  per_round_progress_single_summary_publish allOkTextEnv 5 6 rfl (by decide)

end Dpdce
